import Mathlib

/-!
Verification of the caching / plugin-lifecycle core of `mcp_run/client.py`.

The embedding models the `Client` state (install cache, plugin cache,
revalidation tokens, a logical clock) and the two operations the claims are
about: `Client.list_installs` (install-list refresh with conditional
revalidation) and `Client.plugin` (plugin instantiation with TTL-bounded
caching).  Network responses and the Extism runtime are modelled by an
explicit environment (`Env`); every network call or runtime construction
performed by a call is recorded in an effect trace, and a Python exception
is modelled by an outcome whose `result` is `none` (the state and record
mutations already performed are kept, matching Python semantics).
-/

set_option autoImplicit false

namespace McpRun

/-- Python-dict association list: `lookupA` finds the first binding. -/
def lookupA {α : Type} (l : List (String × α)) (k : String) : Option α :=
  match l with
  | [] => none
  | (k', v) :: t => if k' = k then some v else lookupA t k

/-- Python-dict insertion: replace in place when the key exists, else append. -/
def insertA {α : Type} (l : List (String × α)) (k : String) (v : α) :
    List (String × α) :=
  match l with
  | [] => [(k, v)]
  | (k', v') :: t => if k' = k then (k', v) :: t else (k', v') :: insertA t k v

/-- Python `del d[k]`: remove the binding for `k`. -/
def eraseA {α : Type} (l : List (String × α)) (k : String) :
    List (String × α) :=
  match l with
  | [] => []
  | (k', v') :: t => if k' = k then t else (k', v') :: eraseA t k

/-- A tool entry of a servlet (`Tool` in `types.py`).  The Python object also
carries a cyclic back-reference to its owning servlet; such a cycle cannot be
a field of an inductive value, and no claim inspects it, so the back-reference
is left implicit (the owning record is the one holding the tool). -/
structure WireTool where
  name : String
  description : String
  input_schema : String
  deriving DecidableEq, Repr

/-- Filesystem permission block: `settings["permissions"]["filesystem"]`,
whose `volumes` key is read with `.get("volumes", {})`. -/
structure FsPerm where
  volumes : Option (List (String × String))
  deriving DecidableEq, Repr

/-- Network permission block: `settings["permissions"]["network"]`, whose
`domains` key is read with `.get("domains", [])`. -/
structure NetPerm where
  domains : Option (List String)
  deriving DecidableEq, Repr

/-- Embedding of `settings["permissions"]`: the `filesystem` and `network` sub-dicts are
accessed with `[...]`, so a missing key raises (`none` here). -/
structure Permissions where
  filesystem : Option FsPerm
  network : Option NetPerm
  deriving DecidableEq, Repr

/-- A servlet's `settings` dict: the `permissions` key is accessed with
`settings["permissions"]` (raises when absent, hence `Option`); the `config`
key is read with `settings.get("config", {})`. -/
structure Settings where
  permissions : Option Permissions
  config : Option (List (String × String))
  deriving DecidableEq, Repr

/-- Embedding of `Servlet` from `types.py`, as consumed by `client.py`: `content` starts
out absent and is assigned once by `Client.plugin`. -/
structure Servlet where
  binding_id : String
  content_addr : String
  name : String
  slug : String
  settings : Settings
  tools : List (String × WireTool)
  has_oauth : Bool
  content : Option String
  deriving DecidableEq, Repr

/-- An opaque Extism host function (only its identity matters here). -/
abbrev Func := String

/-- One entry of the manifest's `wasm` list: `{"data": bytes}`. -/
structure WasmMod where
  data : String
  deriving DecidableEq, Repr

/-- The Extism manifest built by `Client.plugin`. -/
structure Manifest where
  wasm : List WasmMod
  allowed_paths : List (String × String)
  allowed_hosts : List String
  config : List (String × String)
  deriving DecidableEq, Repr

/-- Embedding of `InstalledPlugin`, wrapping one runtime handle.  Modelled from the spec:
`plugin.py` is not part of the sources, and the spec states that the wrapper
records the servlet it was built from and a creation timestamp
(`createdAt = now`, read back by `client.py` as `_timestamp`); `wasiFlag` and
`functions` record the arguments passed to the `ext.Plugin` constructor. -/
structure InstalledPlugin where
  install : Servlet
  manifest : Manifest
  wasiFlag : Bool
  functions : List Func
  timestamp : Nat
  deriving DecidableEq, Repr

/-- The mutable `Client` fields relevant to the claims, plus a logical clock
(`now`, in seconds) standing for `datetime.now()`. -/
structure ClientState where
  installCache : List (String × Servlet)
  pluginCache : List (String × InstalledPlugin)
  lastInstallationsRequest : List (String × Option String)
  now : Nat
  deriving DecidableEq, Repr

/-- The OAuth info returned by the gateway (`res.json()["oauth_info"]`). -/
structure OAuthInfo where
  config_name : String
  access_token : String
  deriving DecidableEq, Repr

/-- The body and status of the content-address fetch response.  The status is
carried so that theorems can quantify over it: `Client.plugin` never reads
it. -/
structure ContentResp where
  status : Nat
  body : String
  deriving DecidableEq, Repr

/-- The environment of one `Client.plugin` call: the would-be responses of
the OAuth fetch and the content fetch (`Except.error` = transport failure or
`raise_for_status`), and whether the `ext.Plugin` constructor succeeds. -/
structure Env where
  oauthResp : Except Unit OAuthInfo
  contentResp : Except Unit ContentResp
  runtimeOk : Bool

/-- Network / runtime effects a call can perform, in order. -/
inductive Effect where
  | oauthFetch
  | contentFetch
  | runtimeBuild
  deriving DecidableEq, Repr

/-- Outcome of a `Client.plugin` call: the client state after the call, the
servlet record after the call (Python mutates the caller's record in place),
the trace of effects performed, and the returned plugin (`none` when an
exception propagated). -/
structure PluginOutcome where
  state : ClientState
  install : Servlet
  effects : List Effect
  result : Option InstalledPlugin
  deriving DecidableEq, Repr

/-- Python `wasi or True` on `wasi : bool | None`: `None` and `False` are
falsy, so the expression always evaluates to `True`. -/
def pyOrTrue (wasi : Option Bool) : Bool :=
  match wasi with
  | some true => true
  | _ => true

/-- Embedding of `cache_ok = cache and wasi and functions is None and wasm is None`
(source line 665), where `wasi` is the local after `wasi = wasi or True`. -/
def cacheOk (cache wasiV : Bool) (functions : Option (List Func))
    (wasm : Option (List WasmMod)) : Bool :=
  cache && wasiV && functions.isNone && wasm.isNone

/-- The manifest `config` seed: `install.settings.get("config", {})`. -/
def manifestConfig (install : Servlet) : List (String × String) :=
  (install.settings.config).getD []

/-- The tail of `Client.plugin` after the cache lookup (source lines
680–712): fetch the content when absent (storing the body without a status
check), read the permission blocks (a missing key raises), build the
manifest, inject the OAuth token into `config` (which, when the settings
carried a `config` dict, writes through to the record — Python aliasing),
construct the runtime and, when `cache_ok`, store the new plugin. -/
def Client.pluginBuild (st : ClientState) (env : Env) (install : Servlet)
    (oauth : Option OAuthInfo) (effs : List Effect) (cache_ok wasiV : Bool)
    (functions : Option (List Func)) (wasm : Option (List WasmMod)) :
    PluginOutcome :=
  -- `if install.content is None: ... install.content = res.content`
  let fetched : Option (Servlet × String) × List Effect :=
    match install.content with
    | some b => (some (install, b), effs)
    | none =>
      match env.contentResp with
      | .ok r => (some ({ install with content := some r.body }, r.body),
                  effs ++ [.contentFetch])
      | .error _ => (none, effs ++ [.contentFetch])
  match fetched with
  | (none, effs2) => ⟨st, install, effs2, none⟩
  | (some (install2, bytes), effs2) =>
    -- `perm = install.settings["permissions"]`
    match install2.settings.permissions with
    | none => ⟨st, install2, effs2, none⟩
    | some perm =>
      match perm.filesystem, perm.network with
      | some fsp, some netp =>
        let baseCfg := manifestConfig install2
        let cfg :=
          match oauth with
          | some o => insertA baseCfg o.config_name o.access_token
          | none => baseCfg
        -- `manifest["config"][...] = token` mutates the settings dict in
        -- place when `settings` carried a `config` key (aliasing).
        let install3 :=
          match oauth, install2.settings.config with
          | some o, some m =>
            { install2 with settings :=
              { install2.settings with
                config := some (insertA m o.config_name o.access_token) } }
          | _, _ => install2
        let manifest : Manifest :=
          { wasm := ⟨bytes⟩ :: wasm.getD []
            allowed_paths := fsp.volumes.getD []
            allowed_hosts := netp.domains.getD []
            config := cfg }
        let effs3 := effs2 ++ [.runtimeBuild]
        if env.runtimeOk then
          let p : InstalledPlugin :=
            ⟨install3, manifest, wasiV, functions.getD [], st.now⟩
          let st' :=
            if cache_ok then
              { st with pluginCache := insertA st.pluginCache install3.name p }
            else st
          ⟨st', install3, effs3, some p⟩
        else ⟨st, install3, effs3, none⟩
      | _, _ => ⟨st, install2, effs2, none⟩

/-- The plugin-cache section of `Client.plugin` (source lines 666–679): when
`cache_ok`, look up the cache under the record's name; return an unexpired
hit as-is; delete an expired hit before falling through to the build. -/
def Client.pluginCached (st : ClientState) (env : Env) (install : Servlet)
    (oauth : Option OAuthInfo) (effs : List Effect) (cache_ok wasiV : Bool)
    (functions : Option (List Func)) (wasm : Option (List WasmMod)) :
    PluginOutcome :=
  match (if cache_ok then lookupA st.pluginCache install.name else none) with
  | some cached =>
    if cached.timestamp + 270 > st.now then
      ⟨st, install, effs, some cached⟩
    else
      Client.pluginBuild
        { st with pluginCache := eraseA st.pluginCache install.name }
        env install oauth effs cache_ok wasiV functions wasm
  | none =>
    Client.pluginBuild st env install oauth effs cache_ok wasiV functions wasm

/-- Embedding of `Client.plugin` (source lines 633–712).  Note the source order: the OAuth
fetch happens first, before the plugin-cache lookup; the TTL check compares
`cached._timestamp + 4m30s > datetime.now()`; an expired entry is deleted
before the rebuild. -/
def Client.plugin (st : ClientState) (env : Env) (install : Servlet)
    (cache : Bool) (wasi : Option Bool) (functions : Option (List Func))
    (wasm : Option (List WasmMod)) : PluginOutcome :=
  let oauthStep : Except (List Effect) (Option OAuthInfo × List Effect) :=
    if install.has_oauth then
      match env.oauthResp with
      | .ok o => .ok (some o, [.oauthFetch])
      | .error _ => .error [.oauthFetch]
    else .ok (none, [])
  match oauthStep with
  | .error effs => ⟨st, install, effs, none⟩
  | .ok (oauth, effs) =>
    let wasiV := pyOrTrue wasi
    let cache_ok := cacheOk cache wasiV functions wasm
    Client.pluginCached st env install oauth effs cache_ok wasiV functions wasm

/-- The `servlet.meta.schema` payload: either `{"tools": [...]}` or a single
tool object. -/
inductive WireSchema where
  | withTools (tools : List WireTool)
  | single (tool : WireTool)
  deriving DecidableEq, Repr

/-- Embedding of `tools = tools["tools"] if "tools" in tools else [tools]`. -/
def WireSchema.toolsOf : WireSchema → List WireTool
  | .withTools ts => ts
  | .single t => [t]

/-- One element of `data["installs"]`, restricted to the fields consumed. -/
structure WireInstall where
  binding_id : String
  content_addr : String
  name : Option String
  slug : String
  settings : Settings
  has_client : Bool
  schema : WireSchema
  deriving DecidableEq, Repr

/-- Parsing of one wire install into a `Servlet` (source lines 489–511). -/
def parseInstall (w : WireInstall) : Servlet :=
  { binding_id := w.binding_id
    content_addr := w.content_addr
    name := w.name.getD ""
    slug := w.slug
    settings := w.settings
    tools := w.schema.toolsOf.foldl (fun acc t => insertA acc t.name t) []
    has_oauth := w.has_client
    content := none }

/-- The response of the installations request: status 301 ("no changes"), an
HTTP error (`raise_for_status` raises), or a full install list together with
the response's `Date` header. -/
inductive ListResp where
  | notModified
  | httpError
  | ok (installs : List WireInstall) (date : Option String)
  deriving DecidableEq, Repr

/-- Body of the `for install in data["installs"]` loop of `list_installs`
(source lines 489–515): parse the record, upsert the install cache under the
record's name, delete any plugin-cache entry of that name, and yield the
record. -/
def installStep (acc : ClientState × List Servlet) (w : WireInstall) :
    ClientState × List Servlet :=
  let s := parseInstall w
  let st' := { acc.1 with
    installCache := insertA acc.1.installCache s.name s
    pluginCache :=
      if (lookupA acc.1.pluginCache s.name).isSome then
        eraseA acc.1.pluginCache s.name
      else acc.1.pluginCache }
  (st', acc.2 ++ [s])

/-- Embedding of `Client.list_installs` (source lines 458–515), with the generator run to
completion (as the `installs` property does).  On 301 it yields the cached
values unchanged; otherwise it stores the `Date` header as the new
revalidation token and folds `installStep` over the parsed records.  Returns
the state after the call and the yielded records (`none` when
`raise_for_status` raised). -/
def Client.list_installs (st : ClientState) (profile : String)
    (resp : ListResp) : ClientState × Option (List Servlet) :=
  match resp with
  | .httpError => (st, none)
  | .notModified => (st, some (st.installCache.map Prod.snd))
  | .ok installs date =>
    let st1 := { st with
      lastInstallationsRequest := insertA st.lastInstallationsRequest profile date }
    let r := installs.foldl installStep (st1, [])
    (r.1, some r.2)

/-! ### Helper lemmas about the dictionary operations -/

theorem lookupA_insertA_self {α : Type} (l : List (String × α)) (k : String)
    (v : α) : lookupA (insertA l k v) k = some v := by
  induction l with
  | nil => simp [insertA, lookupA]
  | cons h t ih =>
    obtain ⟨k', v'⟩ := h
    by_cases hk : k' = k <;> simp [insertA, lookupA, hk, ih]

theorem lookupA_insertA_ne {α : Type} (l : List (String × α)) (k n : String)
    (v : α) (h : k ≠ n) : lookupA (insertA l k v) n = lookupA l n := by
  induction l with
  | nil => simp [insertA, lookupA, h]
  | cons hd t ih =>
    obtain ⟨k', v'⟩ := hd
    by_cases hk : k' = k
    · subst hk
      simp [insertA, lookupA, h]
    · simp [insertA, lookupA, hk, ih]

theorem lookupA_isSome_insertA {α : Type} (l : List (String × α))
    (k n : String) (v : α) (h : (lookupA l n).isSome) :
    (lookupA (insertA l k v) n).isSome := by
  by_cases hk : k = n
  · subst hk
    simp [lookupA_insertA_self]
  · rw [lookupA_insertA_ne l k n v hk]
    exact h

theorem lookupA_eraseA_ne {α : Type} (l : List (String × α)) (k n : String)
    (h : k ≠ n) : lookupA (eraseA l k) n = lookupA l n := by
  induction l with
  | nil => simp [eraseA]
  | cons hd t ih =>
    obtain ⟨k', v'⟩ := hd
    by_cases hk : k' = k
    · subst hk
      simp [eraseA, lookupA, h]
    · simp [eraseA, lookupA, hk, ih]

theorem lookupA_none_of_not_mem {α : Type} (l : List (String × α))
    (n : String) (h : n ∉ l.map Prod.fst) : lookupA l n = none := by
  induction l with
  | nil => simp [lookupA]
  | cons hd t ih =>
    obtain ⟨k', v'⟩ := hd
    simp only [List.map_cons, List.mem_cons] at h
    push_neg at h
    simp [lookupA, Ne.symm h.1, ih h.2]

theorem lookupA_eraseA_self {α : Type} (l : List (String × α)) (k : String)
    (hnd : (l.map Prod.fst).Nodup) : lookupA (eraseA l k) k = none := by
  induction l with
  | nil => simp [eraseA, lookupA]
  | cons hd t ih =>
    obtain ⟨k', v'⟩ := hd
    simp only [List.map_cons, List.nodup_cons] at hnd
    by_cases hk : k' = k
    · subst hk
      simp only [eraseA, if_pos rfl]
      exact lookupA_none_of_not_mem t k' hnd.1
    · simp [eraseA, lookupA, hk, ih hnd.2]

theorem eraseA_none_of_none {α : Type} (l : List (String × α)) (k n : String)
    (h : lookupA l n = none) : lookupA (eraseA l k) n = none := by
  induction l with
  | nil => simpa [eraseA] using h
  | cons hd t ih =>
    obtain ⟨k', v'⟩ := hd
    simp only [lookupA] at h
    by_cases hn : k' = n
    · simp [hn] at h
    · simp only [lookupA, if_neg hn] at h
      by_cases hk : k' = k
      · simp [eraseA, hk, lookupA, hn, h]
      · simp [eraseA, hk, lookupA, hn, ih h]

theorem eraseA_map_fst_sublist {α : Type} (l : List (String × α))
    (k : String) :
    List.Sublist ((eraseA l k).map Prod.fst) (l.map Prod.fst) := by
  induction l with
  | nil => simp [eraseA]
  | cons hd t ih =>
    obtain ⟨k', v'⟩ := hd
    by_cases hk : k' = k
    · simp only [eraseA, if_pos hk, List.map_cons]
      exact List.sublist_cons_self k' (t.map Prod.fst)
    · simp only [eraseA, if_neg hk, List.map_cons]
      exact List.Sublist.cons₂ k' ih

theorem eraseA_nodup {α : Type} (l : List (String × α)) (k : String)
    (h : (l.map Prod.fst).Nodup) : ((eraseA l k).map Prod.fst).Nodup :=
  List.Nodup.sublist (eraseA_map_fst_sublist l k) h

/-! ### Lemmas about the `list_installs` fold -/

theorem foldl_installStep_installCache_not_mem (installs : List WireInstall)
    (acc : ClientState × List Servlet) (n : String)
    (h : n ∉ installs.map (fun w => (parseInstall w).name)) :
    lookupA (installs.foldl installStep acc).1.installCache n
      = lookupA acc.1.installCache n := by
  induction installs generalizing acc with
  | nil => rfl
  | cons w t ih =>
    simp only [List.map_cons, List.mem_cons] at h
    push_neg at h
    simp only [List.foldl_cons]
    rw [ih _ h.2]
    simp only [installStep]
    exact lookupA_insertA_ne _ _ _ _ (Ne.symm h.1)

theorem foldl_installStep_installCache_isSome (installs : List WireInstall)
    (acc : ClientState × List Servlet) (n : String)
    (h : (lookupA acc.1.installCache n).isSome) :
    (lookupA (installs.foldl installStep acc).1.installCache n).isSome := by
  induction installs generalizing acc with
  | nil => exact h
  | cons w t ih =>
    simp only [List.foldl_cons]
    refine ih _ ?_
    simp only [installStep]
    exact lookupA_isSome_insertA _ _ _ _ h

theorem foldl_installStep_installCache_mem_isSome (installs : List WireInstall)
    (acc : ClientState × List Servlet) (n : String)
    (h : n ∈ installs.map (fun w => (parseInstall w).name)) :
    (lookupA (installs.foldl installStep acc).1.installCache n).isSome := by
  induction installs generalizing acc with
  | nil => simp at h
  | cons w t ih =>
    simp only [List.map_cons, List.mem_cons] at h
    by_cases hn : n = (parseInstall w).name
    · subst hn
      simp only [List.foldl_cons]
      refine foldl_installStep_installCache_isSome t _ _ ?_
      simp only [installStep]
      rw [lookupA_insertA_self]
      rfl
    · simp only [List.foldl_cons]
      exact ih (installStep acc w) (h.resolve_left hn)

theorem foldl_installStep_pluginCache_none (installs : List WireInstall)
    (acc : ClientState × List Servlet) (n : String)
    (h : lookupA acc.1.pluginCache n = none) :
    lookupA (installs.foldl installStep acc).1.pluginCache n = none := by
  induction installs generalizing acc with
  | nil => exact h
  | cons w t ih =>
    simp only [List.foldl_cons]
    refine ih _ ?_
    simp only [installStep]
    by_cases hs : (lookupA acc.1.pluginCache (parseInstall w).name).isSome
    · simp only [hs, if_pos]
      exact eraseA_none_of_none _ _ _ h
    · simp only [hs, if_neg, Bool.false_eq_true, not_false_eq_true]
      simpa using h

theorem foldl_installStep_pluginCache_nodup (installs : List WireInstall)
    (acc : ClientState × List Servlet)
    (h : (acc.1.pluginCache.map Prod.fst).Nodup) :
    (((installs.foldl installStep acc).1.pluginCache).map Prod.fst).Nodup := by
  induction installs generalizing acc with
  | nil => exact h
  | cons w t ih =>
    simp only [List.foldl_cons]
    refine ih _ ?_
    simp only [installStep]
    by_cases hs : (lookupA acc.1.pluginCache (parseInstall w).name).isSome
    · simp only [hs, if_pos]
      exact eraseA_nodup _ _ h
    · simp only [hs, if_neg, Bool.false_eq_true, not_false_eq_true]
      exact h

theorem foldl_installStep_pluginCache_mem_none (installs : List WireInstall)
    (acc : ClientState × List Servlet) (n : String)
    (hnd : (acc.1.pluginCache.map Prod.fst).Nodup)
    (h : n ∈ installs.map (fun w => (parseInstall w).name)) :
    lookupA (installs.foldl installStep acc).1.pluginCache n = none := by
  induction installs generalizing acc with
  | nil => simp at h
  | cons w t ih =>
    simp only [List.map_cons, List.mem_cons] at h
    simp only [List.foldl_cons]
    by_cases hn : n = (parseInstall w).name
    · subst hn
      refine foldl_installStep_pluginCache_none t _ _ ?_
      simp only [installStep]
      by_cases hs : (lookupA acc.1.pluginCache (parseInstall w).name).isSome
      · simp only [hs, if_pos]
        exact lookupA_eraseA_self _ _ hnd
      · simp only [hs, if_neg, Bool.false_eq_true, not_false_eq_true]
        simpa using Option.not_isSome_iff_eq_none.mp hs
    · refine ih _ ?_ (h.resolve_left hn)
      simp only [installStep]
      by_cases hs : (lookupA acc.1.pluginCache (parseInstall w).name).isSome
      · simp only [hs, if_pos]
        exact eraseA_nodup _ _ hnd
      · simp only [hs, if_neg, Bool.false_eq_true, not_false_eq_true]
        exact hnd

/-! ### Concrete example values -/

def examplePerms : Permissions :=
  { filesystem := some { volumes := some [] }
    network := some { domains := some ["cdn.example.com"] } }

def exampleSettings : Settings :=
  { permissions := some examplePerms
    config := some [("api_key", "k0")] }

def servletA : Servlet :=
  { binding_id := "b-a"
    content_addr := "addr-a"
    name := "a"
    slug := "alice/a"
    settings := exampleSettings
    tools := []
    has_oauth := false
    content := some "WASM-A" }

def wireB : WireInstall :=
  { binding_id := "b-b"
    content_addr := "addr-b"
    name := some "b"
    slug := "alice/b"
    settings := exampleSettings
    has_client := false
    schema := .withTools [⟨"compress", "compress an image", "{}"⟩] }

def servletB : Servlet := parseInstall wireB

def manifestB : Manifest :=
  { wasm := [⟨"WASM-B"⟩]
    allowed_paths := []
    allowed_hosts := ["cdn.example.com"]
    config := [("api_key", "k0")] }

def pluginB : InstalledPlugin :=
  { install := servletB
    manifest := manifestB
    wasiFlag := true
    functions := []
    timestamp := 0 }

def stateA : ClientState :=
  { installCache := [("a", servletA)]
    pluginCache := []
    lastInstallationsRequest := []
    now := 0 }

def stateB : ClientState :=
  { installCache := [("b", servletB)]
    pluginCache := [("b", pluginB)]
    lastInstallationsRequest := [("p", some "Mon")]
    now := 10 }

def emptyState : ClientState :=
  { installCache := []
    pluginCache := []
    lastInstallationsRequest := []
    now := 0 }

/-! ### C2 -/

/-- C2 (counterexample): the claim says a refresh is a full snapshot
replace, so after a refresh no name absent from the new install list remains
a key of the install cache.  Starting from a state whose install cache holds
`"a"`, refreshing with a server list containing only `"b"` leaves `"a"` in
the install cache: `list_installs` never removes entries, it only upserts. -/
theorem c2_counterexample :
    "a" ∉ [wireB].map (fun w => (parseInstall w).name) ∧
    lookupA
      (Client.list_installs stateA "p" (.ok [wireB] (some "Mon"))).1.installCache
      "a" = some servletA := by
  constructor
  · decide
  · rfl

/-- C2 (amended): a non-"not modified" refresh upserts each freshly parsed
record under its name, but a name absent from the new server-side install
list keeps its existing install-cache entry unchanged — a refresh is a
per-name merge, never a full snapshot replace. -/
theorem c2_refresh_merges (st : ClientState) (profile : String)
    (installs : List WireInstall) (date : Option String) (n : String) :
    (n ∉ installs.map (fun w => (parseInstall w).name) →
      lookupA
        (Client.list_installs st profile (.ok installs date)).1.installCache n
        = lookupA st.installCache n) ∧
    (n ∈ installs.map (fun w => (parseInstall w).name) →
      (lookupA
        (Client.list_installs st profile (.ok installs date)).1.installCache
        n).isSome) := by
  constructor
  · intro h
    simp only [Client.list_installs]
    exact foldl_installStep_installCache_not_mem installs _ n h
  · intro h
    simp only [Client.list_installs]
    exact foldl_installStep_installCache_mem_isSome installs _ n h

/-- Witness for `c2_refresh_merges` at a concrete state and response. -/
theorem c2_refresh_merges_witness :
    lookupA
      (Client.list_installs stateA "p" (.ok [wireB] none)).1.installCache "a"
      = lookupA stateA.installCache "a" ∧
    (lookupA
      (Client.list_installs stateA "p" (.ok [wireB] none)).1.installCache
      "b").isSome :=
  ⟨(c2_refresh_merges stateA "p" [wireB] none "a").1 (by decide),
   (c2_refresh_merges stateA "p" [wireB] none "b").2 (by decide)⟩

/-! ### C3 -/

/-- C3 (counterexample): the claim says a "not modified" (301) response with
an empty local install cache is treated as a protocol inconsistency and
forces a non-conditional refresh rather than returning the empty cached set.
In fact `list_installs` issues exactly one request per call and, on a 301,
returns the cached values unconditionally: with an empty cache it returns
the empty set and leaves the entire state (including the revalidation token)
unchanged — no forced refresh, no special handling. -/
theorem c3_counterexample :
    Client.list_installs emptyState "p" ListResp.notModified
      = (emptyState, some []) ∧
    emptyState.installCache = [] := by
  constructor <;> rfl

/-- C3 (amended): on a "not modified" (301) response, `list_installs`
returns the currently cached records — even when the cache is empty — and
leaves the client state untouched; no protocol-inconsistency handling or
forced non-conditional refresh exists in the code. -/
theorem c3_not_modified_returns_cache (st : ClientState) (profile : String) :
    Client.list_installs st profile ListResp.notModified
      = (st, some (st.installCache.map Prod.snd)) := rfl

/-! ### C5 -/

/-- C5: whenever a refresh processes a record under a given name — in
particular whenever it replaces the record held under that name — the
plugin-cache entry of that same name is deleted, with no TTL condition
whatsoever.  The `Nodup` hypothesis states that the plugin-cache keys are
distinct, which is an invariant of the Python `dict` the list models. -/
theorem c5_refresh_evicts_plugin_entry (st : ClientState) (profile : String)
    (installs : List WireInstall) (date : Option String) (n : String)
    (hnd : (st.pluginCache.map Prod.fst).Nodup)
    (h : n ∈ installs.map (fun w => (parseInstall w).name)) :
    lookupA
      (Client.list_installs st profile (.ok installs date)).1.pluginCache n
      = none := by
  simp only [Client.list_installs]
  exact foldl_installStep_pluginCache_mem_none installs _ n hnd h

/-- Witness for `c5_refresh_evicts_plugin_entry`: the cached plugin for
`"b"` (unexpired: built at time 0, now 10) is evicted by a refresh whose
list contains `"b"`. -/
theorem c5_refresh_evicts_plugin_entry_witness :
    lookupA
      (Client.list_installs stateB "p" (.ok [wireB] none)).1.pluginCache "b"
      = none :=
  c5_refresh_evicts_plugin_entry stateB "p" [wireB] none "b"
    (by decide) (by decide)

/-! ### Lemmas about `Client.pluginBuild` -/

theorem pluginBuild_success (st : ClientState) (env : Env) (install : Servlet)
    (oauth : Option OAuthInfo) (effs : List Effect) (ck wv : Bool)
    (f : Option (List Func)) (wm : Option (List WasmMod)) (b : String)
    (perm : Permissions) (fsp : FsPerm) (netp : NetPerm)
    (hb : install.content = some b)
    (hperm : install.settings.permissions = some perm)
    (hfs : perm.filesystem = some fsp)
    (hnet : perm.network = some netp)
    (hrt : env.runtimeOk = true) :
    ∃ q, Client.pluginBuild st env install oauth effs ck wv f wm
        = ⟨if ck then
             { st with pluginCache := insertA st.pluginCache install.name q }
           else st,
           q.install, effs ++ [.runtimeBuild], some q⟩
      ∧ q.timestamp = st.now ∧ q.wasiFlag = wv ∧ q.functions = f.getD []
      ∧ q.install.name = install.name
      ∧ q.install.content = some b
      ∧ q.manifest.config = (match oauth with
          | some o =>
            insertA (manifestConfig install) o.config_name o.access_token
          | none => manifestConfig install)
      ∧ q.install.settings.config = (match oauth, install.settings.config with
          | some o, some m =>
            some (insertA m o.config_name o.access_token)
          | _, _ => install.settings.config) := by
  rcases oauth with _ | o <;>
    rcases hcfg : install.settings.config with _ | m <;>
      simp only [Client.pluginBuild, hb, hperm, hfs, hnet, hrt, if_true,
        manifestConfig, hcfg, Option.getD_some, Option.getD_none] <;>
      refine ⟨_, rfl, rfl, rfl, rfl, rfl, ?_, rfl, ?_⟩ <;>
      simp [hb, hcfg]

/-- Exhaustive shape analysis of `Client.pluginBuild`: either an exception
propagates and the state is returned untouched, or a plugin is fully built
and returned, the state being extended (under `cache_ok`) exactly by that
plugin.  In both cases a `contentFetch` effect can be new only when the
record's content was absent, and the record's content after the call is the
old bytes (when present) or the fetched body (when fetched). -/
theorem pluginBuild_shape (st : ClientState) (env : Env) (install : Servlet)
    (oauth : Option OAuthInfo) (effs : List Effect) (ck wv : Bool)
    (f : Option (List Func)) (wm : Option (List WasmMod)) :
    (∃ i e, Client.pluginBuild st env install oauth effs ck wv f wm
        = ⟨st, i, e, none⟩
      ∧ (Effect.contentFetch ∈ e →
          Effect.contentFetch ∈ effs ∨ install.content = none)
      ∧ (∀ bb, install.content = some bb → i.content = some bb)
      ∧ (∀ r, install.content = none → env.contentResp = .ok r →
          i.content = some r.body))
  ∨ (∃ q e2, Client.pluginBuild st env install oauth effs ck wv f wm
        = ⟨if ck then
             { st with pluginCache := insertA st.pluginCache install.name q }
           else st,
           q.install, e2, some q⟩
      ∧ (Effect.contentFetch ∈ e2 →
          Effect.contentFetch ∈ effs ∨ install.content = none)
      ∧ q.wasiFlag = wv ∧ q.timestamp = st.now
      ∧ (∀ bb, install.content = some bb → q.install.content = some bb)
      ∧ (∀ r, install.content = none → env.contentResp = .ok r →
          q.install.content = some r.body)) := by
  rcases hb : install.content with _ | b
  · rcases hr : env.contentResp with e0 | r0
    · refine Or.inl ⟨install, effs ++ [.contentFetch], ?_,
        fun _ => Or.inr rfl, ?_, ?_⟩
      · simp only [Client.pluginBuild, hb, hr]
      · intro bb hbb
        cases hbb
      · intro r h1 h2
        cases h2
    · rcases hperm : install.settings.permissions with _ | perm
      · refine Or.inl ⟨{ install with content := some r0.body },
          effs ++ [.contentFetch], ?_, fun _ => Or.inr rfl, ?_, ?_⟩
        · simp only [Client.pluginBuild, hb, hr, hperm]
        · intro bb hbb
          cases hbb
        · intro r h1 h2
          cases h2
          rfl
      · rcases hfs : perm.filesystem with _ | fsp
        · refine Or.inl ⟨{ install with content := some r0.body },
            effs ++ [.contentFetch], ?_, fun _ => Or.inr rfl, ?_, ?_⟩
          · simp only [Client.pluginBuild, hb, hr, hperm, hfs]
          · intro bb hbb
            cases hbb
          · intro r h1 h2
            cases h2
            rfl
        · rcases hnet : perm.network with _ | netp
          · refine Or.inl ⟨{ install with content := some r0.body },
              effs ++ [.contentFetch], ?_, fun _ => Or.inr rfl, ?_, ?_⟩
            · simp only [Client.pluginBuild, hb, hr, hperm, hfs, hnet]
            · intro bb hbb
              cases hbb
            · intro r h1 h2
              cases h2
              rfl
          · rcases hrt : env.runtimeOk
            · -- runtime construction raises
              rcases oauth with _ | o
              · refine Or.inl ⟨{ install with content := some r0.body },
                  effs ++ [.contentFetch, .runtimeBuild], ?_,
                  fun _ => Or.inr rfl, ?_, ?_⟩
                · simp [Client.pluginBuild, hb, hr, hperm, hfs, hnet, hrt]
                · intro bb hbb
                  cases hbb
                · intro r h1 h2
                  cases h2
                  rfl
              · rcases hcfg : install.settings.config with _ | m
                · refine Or.inl ⟨{ install with content := some r0.body },
                    effs ++ [.contentFetch, .runtimeBuild], ?_,
                    fun _ => Or.inr rfl, ?_, ?_⟩
                  · simp [Client.pluginBuild, hb, hr, hperm, hfs, hnet, hrt,
                      hcfg]
                  · intro bb hbb
                    cases hbb
                  · intro r h1 h2
                    cases h2
                    rfl
                · refine Or.inl ⟨{ install with content := some r0.body, settings := { install.settings with config := some (insertA m o.config_name o.access_token) } },
                    effs ++ [.contentFetch, .runtimeBuild], ?_,
                    fun _ => Or.inr rfl, ?_, ?_⟩
                  · simp [Client.pluginBuild, hb, hr, hperm, hfs, hnet, hrt,
                      hcfg]
                  · intro bb hbb
                    cases hbb
                  · intro r h1 h2
                    cases h2
                    rfl
            · -- runtime construction succeeds
              rcases oauth with _ | o
              · refine Or.inr ⟨⟨{ install with content := some r0.body },
                  { wasm := ⟨r0.body⟩ :: wm.getD []
                    allowed_paths := fsp.volumes.getD []
                    allowed_hosts := netp.domains.getD []
                    config := manifestConfig install }, wv, f.getD [],
                  st.now⟩,
                  effs ++ [.contentFetch, .runtimeBuild], ?_,
                  fun _ => Or.inr rfl, rfl, rfl, ?_, ?_⟩
                · simp [Client.pluginBuild, hb, hr, hperm, hfs, hnet, hrt,
                    manifestConfig]
                · intro bb hbb
                  cases hbb
                · intro r h1 h2
                  cases h2
                  rfl
              · rcases hcfg : install.settings.config with _ | m
                · refine Or.inr ⟨⟨{ install with content := some r0.body },
                    { wasm := ⟨r0.body⟩ :: wm.getD []
                      allowed_paths := fsp.volumes.getD []
                      allowed_hosts := netp.domains.getD []
                      config := insertA (manifestConfig install)
                        o.config_name o.access_token }, wv, f.getD [],
                    st.now⟩,
                    effs ++ [.contentFetch, .runtimeBuild], ?_,
                    fun _ => Or.inr rfl, rfl, rfl, ?_, ?_⟩
                  · simp [Client.pluginBuild, hb, hr, hperm, hfs, hnet, hrt,
                      hcfg, manifestConfig]
                  · intro bb hbb
                    cases hbb
                  · intro r h1 h2
                    cases h2
                    rfl
                · refine Or.inr ⟨⟨{ install with content := some r0.body, settings := { install.settings with config := some (insertA m o.config_name o.access_token) } },
                    { wasm := ⟨r0.body⟩ :: wm.getD []
                      allowed_paths := fsp.volumes.getD []
                      allowed_hosts := netp.domains.getD []
                      config := insertA (manifestConfig install)
                        o.config_name o.access_token }, wv, f.getD [],
                    st.now⟩,
                    effs ++ [.contentFetch, .runtimeBuild], ?_,
                    fun _ => Or.inr rfl, rfl, rfl, ?_, ?_⟩
                  · simp [Client.pluginBuild, hb, hr, hperm, hfs, hnet, hrt,
                      hcfg, manifestConfig]
                  · intro bb hbb
                    cases hbb
                  · intro r h1 h2
                    cases h2
                    rfl
  · rcases hperm : install.settings.permissions with _ | perm
    · refine Or.inl ⟨install, effs, ?_, fun h => Or.inl h, ?_, ?_⟩
      · simp only [Client.pluginBuild, hb, hperm]
      · intro bb hbb
        cases hbb
        exact hb
      · intro r h1 h2
        cases h1
    · rcases hfs : perm.filesystem with _ | fsp
      · refine Or.inl ⟨install, effs, ?_, fun h => Or.inl h, ?_, ?_⟩
        · simp only [Client.pluginBuild, hb, hperm, hfs]
        · intro bb hbb
          cases hbb
          exact hb
        · intro r h1 h2
          cases h1
      · rcases hnet : perm.network with _ | netp
        · refine Or.inl ⟨install, effs, ?_, fun h => Or.inl h, ?_, ?_⟩
          · simp only [Client.pluginBuild, hb, hperm, hfs, hnet]
          · intro bb hbb
            cases hbb
            exact hb
          · intro r h1 h2
            cases h1
        · rcases hrt : env.runtimeOk
          · -- runtime construction raises
            rcases oauth with _ | o
            · refine Or.inl ⟨install, effs ++ [.runtimeBuild], ?_, ?_, ?_, ?_⟩
              · simp [Client.pluginBuild, hb, hperm, hfs, hnet, hrt]
              · intro h
                rcases List.mem_append.mp h with h | h
                · exact Or.inl h
                · simp at h
              · intro bb hbb
                cases hbb
                exact hb
              · intro r h1 h2
                cases h1
            · rcases hcfg : install.settings.config with _ | m
              · refine Or.inl ⟨install, effs ++ [.runtimeBuild], ?_, ?_,
                  ?_, ?_⟩
                · simp [Client.pluginBuild, hb, hperm, hfs, hnet, hrt, hcfg]
                · intro h
                  rcases List.mem_append.mp h with h | h
                  · exact Or.inl h
                  · simp at h
                · intro bb hbb
                  cases hbb
                  exact hb
                · intro r h1 h2
                  cases h1
              · refine Or.inl ⟨{ install with settings := { install.settings with config := some (insertA m o.config_name o.access_token) } },
                  effs ++ [.runtimeBuild], ?_, ?_, ?_, ?_⟩
                · simp [Client.pluginBuild, hb, hperm, hfs, hnet, hrt, hcfg]
                · intro h
                  rcases List.mem_append.mp h with h | h
                  · exact Or.inl h
                  · simp at h
                · intro bb hbb
                  cases hbb
                  simpa using hb
                · intro r h1 h2
                  cases h1
          · -- runtime construction succeeds
            rcases oauth with _ | o
            · refine Or.inr ⟨⟨install,
                { wasm := ⟨b⟩ :: wm.getD []
                  allowed_paths := fsp.volumes.getD []
                  allowed_hosts := netp.domains.getD []
                  config := manifestConfig install }, wv, f.getD [],
                st.now⟩, effs ++ [.runtimeBuild], ?_, ?_, rfl, rfl, ?_, ?_⟩
              · simp [Client.pluginBuild, hb, hperm, hfs, hnet, hrt,
                  manifestConfig]
              · intro h
                rcases List.mem_append.mp h with h | h
                · exact Or.inl h
                · simp at h
              · intro bb hbb
                cases hbb
                exact hb
              · intro r h1 h2
                cases h1
            · rcases hcfg : install.settings.config with _ | m
              · refine Or.inr ⟨⟨install,
                  { wasm := ⟨b⟩ :: wm.getD []
                    allowed_paths := fsp.volumes.getD []
                    allowed_hosts := netp.domains.getD []
                    config := insertA (manifestConfig install)
                      o.config_name o.access_token }, wv, f.getD [],
                  st.now⟩, effs ++ [.runtimeBuild], ?_, ?_, rfl, rfl, ?_, ?_⟩
                · simp [Client.pluginBuild, hb, hperm, hfs, hnet, hrt, hcfg,
                    manifestConfig]
                · intro h
                  rcases List.mem_append.mp h with h | h
                  · exact Or.inl h
                  · simp at h
                · intro bb hbb
                  cases hbb
                  exact hb
                · intro r h1 h2
                  cases h1
              · refine Or.inr ⟨⟨{ install with settings := { install.settings with config := some (insertA m o.config_name o.access_token) } },
                  { wasm := ⟨b⟩ :: wm.getD []
                    allowed_paths := fsp.volumes.getD []
                    allowed_hosts := netp.domains.getD []
                    config := insertA (manifestConfig install)
                      o.config_name o.access_token }, wv, f.getD [],
                  st.now⟩, effs ++ [.runtimeBuild], ?_, ?_, rfl, rfl, ?_, ?_⟩
                · simp [Client.pluginBuild, hb, hperm, hfs, hnet, hrt, hcfg,
                    manifestConfig]
                · intro h
                  rcases List.mem_append.mp h with h | h
                  · exact Or.inl h
                  · simp at h
                · intro bb hbb
                  cases hbb
                  simpa using hb
                · intro r h1 h2
                  cases h1

/-- When an exception propagates out of `pluginBuild`, the client state is
exactly the state that was passed in. -/
theorem pluginBuild_result_none_state (st : ClientState) (env : Env)
    (install : Servlet) (oauth : Option OAuthInfo) (effs : List Effect)
    (ck wv : Bool) (f : Option (List Func)) (wm : Option (List WasmMod))
    (h : (Client.pluginBuild st env install oauth effs ck wv f wm).result
        = none) :
    (Client.pluginBuild st env install oauth effs ck wv f wm).state = st := by
  rcases pluginBuild_shape st env install oauth effs ck wv f wm with
    ⟨i, e, heq, _⟩ | ⟨q, e2, heq, _⟩
  · rw [heq]
  · rw [heq] at h
    cases h

/-- The state after `pluginBuild` is either untouched or extended exactly by
the fully built plugin that is also returned. -/
theorem pluginBuild_state_spec (st : ClientState) (env : Env)
    (install : Servlet) (oauth : Option OAuthInfo) (effs : List Effect)
    (ck wv : Bool) (f : Option (List Func)) (wm : Option (List WasmMod)) :
    (Client.pluginBuild st env install oauth effs ck wv f wm).state = st
    ∨ (ck = true ∧ ∃ q,
        (Client.pluginBuild st env install oauth effs ck wv f wm).result
          = some q
        ∧ (Client.pluginBuild st env install oauth effs ck wv f wm).state
          = { st with pluginCache := insertA st.pluginCache install.name q }) := by
  rcases pluginBuild_shape st env install oauth effs ck wv f wm with
    ⟨i, e, heq, _⟩ | ⟨q, e2, heq, _⟩
  · left
    rw [heq]
  · rw [heq]
    cases ck
    · left
      simp
    · right
      exact ⟨rfl, q, rfl, by simp⟩

/-- With `cache_ok = false`, `pluginBuild` never touches the state. -/
theorem pluginBuild_state_of_ck_false (st : ClientState) (env : Env)
    (install : Servlet) (oauth : Option OAuthInfo) (effs : List Effect)
    (wv : Bool) (f : Option (List Func)) (wm : Option (List WasmMod)) :
    (Client.pluginBuild st env install oauth effs false wv f wm).state
      = st := by
  rcases pluginBuild_state_spec st env install oauth effs false wv f wm with
    h | ⟨hck, _⟩
  · exact h
  · cases hck

/-- A successfully built plugin records the `wasi` value passed to the
runtime constructor. -/
theorem pluginBuild_result_wasi (st : ClientState) (env : Env)
    (install : Servlet) (oauth : Option OAuthInfo) (effs : List Effect)
    (ck wv : Bool) (f : Option (List Func)) (wm : Option (List WasmMod))
    (q : InstalledPlugin)
    (h : (Client.pluginBuild st env install oauth effs ck wv f wm).result
        = some q) :
    q.wasiFlag = wv := by
  rcases pluginBuild_shape st env install oauth effs ck wv f wm with
    ⟨i, e, heq, _⟩ | ⟨q', e2, heq, _, hw, _⟩
  · rw [heq] at h
    cases h
  · rw [heq] at h
    cases h
    exact hw

/-- The function `pluginBuild` reads the input state only through its clock: two states
with the same `now` produce the same result, effect trace and record. -/
theorem pluginBuild_congr (st st' : ClientState) (hnow : st.now = st'.now)
    (env : Env) (install : Servlet) (oauth : Option OAuthInfo)
    (effs : List Effect) (ck wv : Bool) (f : Option (List Func))
    (wm : Option (List WasmMod)) :
    (Client.pluginBuild st env install oauth effs ck wv f wm).result
      = (Client.pluginBuild st' env install oauth effs ck wv f wm).result
    ∧ (Client.pluginBuild st env install oauth effs ck wv f wm).effects
      = (Client.pluginBuild st' env install oauth effs ck wv f wm).effects
    ∧ (Client.pluginBuild st env install oauth effs ck wv f wm).install
      = (Client.pluginBuild st' env install oauth effs ck wv f wm).install := by
  rcases hb : install.content with _ | b
  · rcases hr : env.contentResp with e0 | r0
    · simp [Client.pluginBuild, hb, hr]
    · rcases hperm : install.settings.permissions with _ | perm
      · simp [Client.pluginBuild, hb, hr, hperm]
      · rcases hfs : perm.filesystem with _ | fsp
        · simp [Client.pluginBuild, hb, hr, hperm, hfs]
        · rcases hnet : perm.network with _ | netp
          · simp [Client.pluginBuild, hb, hr, hperm, hfs, hnet]
          · rcases hrt : env.runtimeOk <;>
              simp [Client.pluginBuild, hb, hr, hperm, hfs, hnet, hrt, hnow]
  · rcases hperm : install.settings.permissions with _ | perm
    · simp [Client.pluginBuild, hb, hperm]
    · rcases hfs : perm.filesystem with _ | fsp
      · simp [Client.pluginBuild, hb, hperm, hfs]
      · rcases hnet : perm.network with _ | netp
        · simp [Client.pluginBuild, hb, hperm, hfs, hnet]
        · rcases hrt : env.runtimeOk <;>
            simp [Client.pluginBuild, hb, hperm, hfs, hnet, hrt, hnow]

/-! ### Further concrete example values (plugin-side claims) -/

def servletBC : Servlet := { servletB with content := some "WASM-B" }

def servletO : Servlet :=
  { binding_id := "b-o"
    content_addr := "addr-o"
    name := "o"
    slug := "alice/o"
    settings := exampleSettings
    tools := []
    has_oauth := true
    content := some "WASM-O" }

def pluginO : InstalledPlugin :=
  { install := servletO
    manifest := manifestB
    wasiFlag := true
    functions := []
    timestamp := 0 }

def servletN : Servlet :=
  { binding_id := "b-n"
    content_addr := "addr-n"
    name := "n"
    slug := "alice/n"
    settings := exampleSettings
    tools := []
    has_oauth := false
    content := none }

def stateO : ClientState :=
  { installCache := [("o", servletO)]
    pluginCache := [("o", pluginO)]
    lastInstallationsRequest := []
    now := 10 }

def stateExp : ClientState :=
  { installCache := [("b", servletBC)]
    pluginCache := [("b", pluginB)]
    lastInstallationsRequest := []
    now := 400 }

def envOk : Env :=
  { oauthResp := .ok ⟨"oauth_token", "SECRET"⟩
    contentResp := .ok ⟨200, "BYTES"⟩
    runtimeOk := true }

def envNoRt : Env :=
  { oauthResp := .ok ⟨"oauth_token", "SECRET"⟩
    contentResp := .ok ⟨200, "BYTES"⟩
    runtimeOk := false }

def envErrBody : Env :=
  { oauthResp := .error ()
    contentResp := .ok ⟨500, "ERRBODY"⟩
    runtimeOk := true }

/-! ### C1 -/

/-- C1: the claim says that for a record with `hasOAuth = true` and a
cacheable request, a hit on an unexpired Plugin Cache entry returns the
cached instance without any network I/O, in particular without re-fetching
OAuth.  The code performs the OAuth fetch *before* the cache lookup (source
line 653 precedes line 666), so even on the fast path the OAuth endpoint is
hit and the fetched token is discarded: at this concrete unexpired-entry
state the call returns the cached instance but its effect trace is
`[oauthFetch]`, not `[]`. -/
theorem c1_fast_path_still_fetches_oauth :
    (Client.plugin stateO envOk servletO true none none none).result
      = some pluginO ∧
    (Client.plugin stateO envOk servletO true none none none).effects
      = [Effect.oauthFetch] ∧
    (Client.plugin stateO envOk servletO true none none none).state
      = stateO := by
  decide

/-! ### C4 -/

/-- C4: with a cacheable call (`cache = true`, no extras), a plugin-cache
entry under the record's name is returned as-is while
`timestamp + 270s > now`; once `timestamp + 270s ≤ now` the entry is
deleted and a fresh instance (different from the old one, built at `now`)
is returned and stored.  The OAuth hypothesis keeps the pre-lookup OAuth
fetch from raising; the second part assumes the content is present, the
permission blocks exist and the runtime constructor succeeds, so that the
rebuild completes. -/
theorem c4_ttl_reuse (st : ClientState) (env : Env) (install : Servlet)
    (p : InstalledPlugin)
    (hl : lookupA st.pluginCache install.name = some p)
    (ho : install.has_oauth = true → ∃ o, env.oauthResp = .ok o) :
    (p.timestamp + 270 > st.now →
      (Client.plugin st env install true none none none).result = some p ∧
      (Client.plugin st env install true none none none).state = st) ∧
    (p.timestamp + 270 ≤ st.now →
      ∀ b perm fsp netp, install.content = some b →
        install.settings.permissions = some perm →
        perm.filesystem = some fsp → perm.network = some netp →
        env.runtimeOk = true →
        ∃ q, (Client.plugin st env install true none none none).result
            = some q
          ∧ q ≠ p ∧ q.timestamp = st.now
          ∧ lookupA
              (Client.plugin st env install true none none none).state.pluginCache
              install.name = some q) := by
  constructor
  · intro hfresh
    rcases hoa : install.has_oauth
    · simp [Client.plugin, Client.pluginCached, hoa, cacheOk, pyOrTrue, hl,
        hfresh]
    · rcases ho hoa with ⟨o, he⟩
      simp [Client.plugin, Client.pluginCached, hoa, he, cacheOk, pyOrTrue,
        hl, hfresh]
  · intro hexp b perm fsp netp hb hperm hfs hnet hrt
    have hnf : ¬ (p.timestamp + 270 > st.now) := by omega
    have key : ∀ (oauth : Option OAuthInfo) (effs : List Effect),
        ∃ q, (Client.pluginBuild
            { st with pluginCache := eraseA st.pluginCache install.name }
            env install oauth effs true true none none).result = some q
          ∧ q ≠ p ∧ q.timestamp = st.now
          ∧ lookupA (Client.pluginBuild
              { st with pluginCache := eraseA st.pluginCache install.name }
              env install oauth effs true true none none).state.pluginCache
              install.name = some q := by
      intro oauth effs
      obtain ⟨q, heq, hts, hwv, hfn, hname, hcontent, hmc, hsc⟩ :=
        pluginBuild_success
          { st with pluginCache := eraseA st.pluginCache install.name }
          env install oauth effs true true none none b perm fsp netp
          hb hperm hfs hnet hrt
      have hts' : q.timestamp = st.now := hts
      refine ⟨q, ?_, ?_, hts', ?_⟩
      · rw [heq]
      · intro hqp
        rw [hqp] at hts'
        omega
      · rw [heq]
        simp only [if_pos rfl]
        exact lookupA_insertA_self _ _ _
    rcases hoa : install.has_oauth
    · simpa [Client.plugin, Client.pluginCached, hoa, cacheOk, pyOrTrue, hl,
        hnf] using key none []
    · rcases ho hoa with ⟨o, he⟩
      simpa [Client.plugin, Client.pluginCached, hoa, he, cacheOk, pyOrTrue,
        hl, hnf] using key (some o) [Effect.oauthFetch]

/-- Witness for `c4_ttl_reuse`: the unexpired concrete entry (built at 0,
now 10) is returned as-is; at now 400 the same entry is evicted and a fresh
different instance is cached. -/
theorem c4_ttl_reuse_witness :
    ((Client.plugin stateB envOk servletB true none none none).result
        = some pluginB ∧
      (Client.plugin stateB envOk servletB true none none none).state
        = stateB) ∧
    (∃ q, (Client.plugin stateExp envOk servletBC true none none none).result
        = some q
      ∧ q ≠ pluginB ∧ q.timestamp = stateExp.now
      ∧ lookupA
          (Client.plugin stateExp envOk servletBC true none none none).state.pluginCache
          servletBC.name = some q) :=
  ⟨(c4_ttl_reuse stateB envOk servletB pluginB (by decide)
      (fun h => absurd h (by decide))).1 (by decide),
   (c4_ttl_reuse stateExp envOk servletBC pluginB (by decide)
      (fun h => absurd h (by decide))).2 (by decide) "WASM-B" examplePerms
      ⟨some []⟩ ⟨some ["cdn.example.com"]⟩ (by decide) (by decide)
      (by decide) (by decide) (by decide)⟩

/-! ### Lemmas about `Client.pluginCached` -/

theorem pluginCached_ck_false (st : ClientState) (env : Env)
    (install : Servlet) (oauth : Option OAuthInfo) (effs : List Effect)
    (wv : Bool) (f : Option (List Func)) (wm : Option (List WasmMod)) :
    Client.pluginCached st env install oauth effs false wv f wm
      = Client.pluginBuild st env install oauth effs false wv f wm := by
  simp [Client.pluginCached]

theorem pluginCached_miss (st : ClientState) (env : Env) (install : Servlet)
    (oauth : Option OAuthInfo) (effs : List Effect) (ck wv : Bool)
    (f : Option (List Func)) (wm : Option (List WasmMod))
    (hmiss : lookupA st.pluginCache install.name = none) :
    Client.pluginCached st env install oauth effs ck wv f wm
      = Client.pluginBuild st env install oauth effs ck wv f wm := by
  rcases ck <;> simp [Client.pluginCached, hmiss]

/-- Core of the partial-failure analysis: after the cache section and build,
a `none` result leaves the plugin cache unchanged except possibly for the
eviction of an already-expired entry, and every entry of the final plugin
cache is either a pre-existing entry or the fully built returned plugin. -/
theorem pluginCached_failure_safe (st : ClientState) (env : Env)
    (install : Servlet) (oauth : Option OAuthInfo) (effs : List Effect)
    (ck wv : Bool) (f : Option (List Func)) (wm : Option (List WasmMod))
    (hnd : (st.pluginCache.map Prod.fst).Nodup) :
    ((Client.pluginCached st env install oauth effs ck wv f wm).result = none →
      (Client.pluginCached st env install oauth effs ck wv f wm).state.pluginCache
        = st.pluginCache
      ∨ (∃ p, lookupA st.pluginCache install.name = some p
          ∧ p.timestamp + 270 ≤ st.now
          ∧ (Client.pluginCached st env install oauth effs ck wv f wm).state.pluginCache
            = eraseA st.pluginCache install.name))
    ∧ (∀ n q,
        lookupA
          (Client.pluginCached st env install oauth effs ck wv f wm).state.pluginCache
          n = some q →
        lookupA st.pluginCache n = some q
        ∨ (Client.pluginCached st env install oauth effs ck wv f wm).result
            = some q) := by
  rcases hLk : (if ck then lookupA st.pluginCache install.name else none)
    with _ | cached
  · have hEq : Client.pluginCached st env install oauth effs ck wv f wm
        = Client.pluginBuild st env install oauth effs ck wv f wm := by
      simp [Client.pluginCached, hLk]
    rw [hEq]
    constructor
    · intro hres
      exact Or.inl
        (by rw [pluginBuild_result_none_state _ _ _ _ _ _ _ _ _ hres])
    · intro n q hq
      rcases pluginBuild_state_spec st env install oauth effs ck wv f wm with
        hs | ⟨_, q', hres, hs⟩
      · rw [hs] at hq
        exact Or.inl hq
      · rw [hs] at hq
        dsimp only at hq
        by_cases hn : install.name = n
        · subst hn
          rw [lookupA_insertA_self] at hq
          cases hq
          exact Or.inr hres
        · rw [lookupA_insertA_ne _ _ _ _ hn] at hq
          exact Or.inl hq
  · have hl : lookupA st.pluginCache install.name = some cached := by
      by_cases hck : ck = true
      · rw [hck] at hLk
        simpa using hLk
      · simp [hck] at hLk
    by_cases hfr : cached.timestamp + 270 > st.now
    · have hEq : Client.pluginCached st env install oauth effs ck wv f wm
          = ⟨st, install, effs, some cached⟩ := by
        simp [Client.pluginCached, hLk, hfr]
      rw [hEq]
      constructor
      · intro h
        cases h
      · intro n q hq
        exact Or.inl hq
    · have hEq : Client.pluginCached st env install oauth effs ck wv f wm
          = Client.pluginBuild
              { st with pluginCache := eraseA st.pluginCache install.name }
              env install oauth effs ck wv f wm := by
        simp [Client.pluginCached, hLk, hfr]
      rw [hEq]
      constructor
      · intro hres
        refine Or.inr ⟨cached, hl, by omega, ?_⟩
        rw [pluginBuild_result_none_state _ _ _ _ _ _ _ _ _ hres]
      · intro n q hq
        rcases pluginBuild_state_spec
            { st with pluginCache := eraseA st.pluginCache install.name }
            env install oauth effs ck wv f wm with hs | ⟨_, q', hres, hs⟩
        · rw [hs] at hq
          dsimp only at hq
          by_cases hn : install.name = n
          · subst hn
            rw [lookupA_eraseA_self _ _ hnd] at hq
            cases hq
          · rw [lookupA_eraseA_ne _ _ _ hn] at hq
            exact Or.inl hq
        · rw [hs] at hq
          dsimp only at hq
          by_cases hn : install.name = n
          · subst hn
            rw [lookupA_insertA_self] at hq
            cases hq
            exact Or.inr hres
          · rw [lookupA_insertA_ne _ _ _ _ hn] at hq
            rw [lookupA_eraseA_ne _ _ _ hn] at hq
            exact Or.inl hq

/-! ### C6 -/

/-- C6 (counterexample): the claim says the call is treated as cacheable
exactly when caching was requested and both extras collections are empty.
Passing `functions = some []` — an empty, but present, extras collection —
with caching requested makes `cache_ok` false (the code tests `is None`,
not emptiness), and the call ignores a fresh unexpired cache entry: it
returns a newly built instance instead of the cached one, leaving the cache
unwritten. -/
theorem c6_counterexample :
    cacheOk true (pyOrTrue none) (some ([] : List Func)) none = false ∧
    (Client.plugin stateB envOk servletBC true none (some []) none).result
      ≠ some pluginB ∧
    (Client.plugin stateB envOk servletBC true none (some []) none).state.pluginCache
      = stateB.pluginCache := by
  decide

/-- C6 (amended): the call is treated as cacheable exactly when caching was
requested AND the `functions` argument is `None` AND the `wasm` argument is
`None` — an empty-but-present list still bypasses the cache.  Whenever
either argument is supplied, the call writes nothing to the plugin cache and
reads nothing from it (the outcome is the same for any plugin-cache
contents`L`), regardless of TTL state. -/
theorem c6_cache_bypass (st : ClientState) (env : Env) (install : Servlet)
    (c : Bool) (w : Option Bool) (f : Option (List Func))
    (wm : Option (List WasmMod)) (L : List (String × InstalledPlugin)) :
    cacheOk c (pyOrTrue w) f wm = (c && f.isNone && wm.isNone) ∧
    ((f.isNone && wm.isNone) = false →
      (Client.plugin st env install c w f wm).state.pluginCache
        = st.pluginCache ∧
      (Client.plugin { st with pluginCache := L } env install c w f wm).result
        = (Client.plugin st env install c w f wm).result ∧
      (Client.plugin { st with pluginCache := L } env install c w f wm).effects
        = (Client.plugin st env install c w f wm).effects) := by
  have hpy : pyOrTrue w = true := by
    rcases w with _ | b
    · rfl
    · cases b <;> rfl
  constructor
  · rw [hpy]
    simp [cacheOk]
  · intro hf
    have hck : cacheOk c (pyOrTrue w) f wm = false := by
      rcases f with _ | fl <;> rcases wm with _ | wl <;>
        simp_all [cacheOk]
    rcases hoa : install.has_oauth
    · have h1 : Client.plugin st env install c w f wm
          = Client.pluginCached st env install none [] false (pyOrTrue w)
              f wm := by
        simp [Client.plugin, hoa, hck]
      have h2 : Client.plugin { st with pluginCache := L } env install c w
            f wm
          = Client.pluginCached { st with pluginCache := L } env install
              none [] false (pyOrTrue w) f wm := by
        simp [Client.plugin, hoa, hck]
      rw [h1, h2, pluginCached_ck_false, pluginCached_ck_false]
      refine ⟨?_, ?_, ?_⟩
      · rw [pluginBuild_state_of_ck_false]
      · exact (pluginBuild_congr { st with pluginCache := L } st rfl env
          install none [] false (pyOrTrue w) f wm).1
      · exact (pluginBuild_congr { st with pluginCache := L } st rfl env
          install none [] false (pyOrTrue w) f wm).2.1
    · rcases he : env.oauthResp with e0 | o
      · have h1 : Client.plugin st env install c w f wm
            = ⟨st, install, [.oauthFetch], none⟩ := by
          simp [Client.plugin, hoa, he]
        have h2 : Client.plugin { st with pluginCache := L } env install c w
              f wm
            = ⟨{ st with pluginCache := L }, install, [.oauthFetch], none⟩ := by
          simp [Client.plugin, hoa, he]
        rw [h1, h2]
        exact ⟨rfl, rfl, rfl⟩
      · have h1 : Client.plugin st env install c w f wm
            = Client.pluginCached st env install (some o) [.oauthFetch]
                false (pyOrTrue w) f wm := by
          simp [Client.plugin, hoa, he, hck]
        have h2 : Client.plugin { st with pluginCache := L } env install c w
              f wm
            = Client.pluginCached { st with pluginCache := L } env install
                (some o) [.oauthFetch] false (pyOrTrue w) f wm := by
          simp [Client.plugin, hoa, he, hck]
        rw [h1, h2, pluginCached_ck_false, pluginCached_ck_false]
        refine ⟨?_, ?_, ?_⟩
        · rw [pluginBuild_state_of_ck_false]
        · exact (pluginBuild_congr { st with pluginCache := L } st rfl env
            install (some o) [.oauthFetch] false (pyOrTrue w) f wm).1
        · exact (pluginBuild_congr { st with pluginCache := L } st rfl env
            install (some o) [.oauthFetch] false (pyOrTrue w) f wm).2.1

/-- Witness for `c6_cache_bypass` at a concrete state: the call with an
empty-but-present `functions` list leaves the plugin cache untouched and its
result does not depend on the cache contents. -/
theorem c6_cache_bypass_witness :
    (Client.plugin stateB envOk servletBC true none (some []) none).state.pluginCache
      = stateB.pluginCache ∧
    (Client.plugin { stateB with pluginCache := [] } envOk servletBC true
        none (some []) none).result
      = (Client.plugin stateB envOk servletBC true none (some []) none).result :=
  ⟨((c6_cache_bypass stateB envOk servletBC true none (some []) none []).2
      (by decide)).1,
   ((c6_cache_bypass stateB envOk servletBC true none (some []) none []).2
      (by decide)).2.1⟩

/-! ### C7 -/

/-- C7 (counterexample): the claim says any failure after partial work
leaves the Plugin Cache unchanged.  At this concrete input the cache holds
an expired entry (built at 0, now 400) and the runtime constructor raises:
the call fails (`result = none`) yet the cache did change — the expired
entry was deleted before the failed build. -/
theorem c7_counterexample :
    (Client.plugin stateExp envNoRt servletBC true none none none).result
      = none ∧
    (Client.plugin stateExp envNoRt servletBC true none none none).state.pluginCache
      ≠ stateExp.pluginCache := by
  decide

/-- C7 (amended): a failing `Client.plugin` call adds nothing to the Plugin
Cache — the cache after the call is either unchanged or merely missing an
entry that was already expired at lookup time — and every entry of the
cache after any call is either a pre-existing entry or the fully
constructed instance the call returned, so only fully constructed instances
are ever cached.  (The `Nodup` hypothesis is the key-uniqueness invariant
of the Python dict.) -/
theorem c7_failed_build_caches_nothing (st : ClientState) (env : Env)
    (install : Servlet) (c : Bool) (w : Option Bool)
    (f : Option (List Func)) (wm : Option (List WasmMod))
    (hnd : (st.pluginCache.map Prod.fst).Nodup) :
    ((Client.plugin st env install c w f wm).result = none →
      (Client.plugin st env install c w f wm).state.pluginCache
        = st.pluginCache
      ∨ (∃ p, lookupA st.pluginCache install.name = some p
          ∧ p.timestamp + 270 ≤ st.now
          ∧ (Client.plugin st env install c w f wm).state.pluginCache
            = eraseA st.pluginCache install.name))
    ∧ (∀ n q,
        lookupA (Client.plugin st env install c w f wm).state.pluginCache n
          = some q →
        lookupA st.pluginCache n = some q
        ∨ (Client.plugin st env install c w f wm).result = some q) := by
  rcases hoa : install.has_oauth
  · have h1 : Client.plugin st env install c w f wm
        = Client.pluginCached st env install none []
            (cacheOk c (pyOrTrue w) f wm) (pyOrTrue w) f wm := by
      simp [Client.plugin, hoa]
    rw [h1]
    exact pluginCached_failure_safe st env install none [] _ _ f wm hnd
  · rcases he : env.oauthResp with e0 | o
    · have h1 : Client.plugin st env install c w f wm
          = ⟨st, install, [.oauthFetch], none⟩ := by
        simp [Client.plugin, hoa, he]
      rw [h1]
      constructor
      · intro _
        exact Or.inl rfl
      · intro n q hq
        exact Or.inl hq
    · have h1 : Client.plugin st env install c w f wm
          = Client.pluginCached st env install (some o) [.oauthFetch]
              (cacheOk c (pyOrTrue w) f wm) (pyOrTrue w) f wm := by
        simp [Client.plugin, hoa, he]
      rw [h1]
      exact pluginCached_failure_safe st env install (some o) [.oauthFetch]
        _ _ f wm hnd

/-- Witness for `c7_failed_build_caches_nothing`: the concrete failing call
of the counterexample state falls in the "evicted an already-expired entry"
disjunct. -/
theorem c7_failed_build_caches_nothing_witness :
    (Client.plugin stateExp envNoRt servletBC true none none none).state.pluginCache
      = stateExp.pluginCache
    ∨ (∃ p, lookupA stateExp.pluginCache servletBC.name = some p
        ∧ p.timestamp + 270 ≤ stateExp.now
        ∧ (Client.plugin stateExp envNoRt servletBC true none none none).state.pluginCache
          = eraseA stateExp.pluginCache servletBC.name) :=
  (c7_failed_build_caches_nothing stateExp envNoRt servletBC true none none
    none (by decide)).1 (by decide)

/-! ### C8 -/

theorem pluginCached_wasi (st : ClientState) (env : Env) (install : Servlet)
    (oauth : Option OAuthInfo) (effs : List Effect) (ck wv : Bool)
    (f : Option (List Func)) (wm : Option (List WasmMod))
    (p : InstalledPlugin)
    (hnb : Effect.runtimeBuild ∉ effs)
    (hres : (Client.pluginCached st env install oauth effs ck wv f wm).result
        = some p)
    (hbuilt : Effect.runtimeBuild ∈
        (Client.pluginCached st env install oauth effs ck wv f wm).effects) :
    p.wasiFlag = wv := by
  rcases hLk : (if ck then lookupA st.pluginCache install.name else none)
    with _ | cached
  · have hEq : Client.pluginCached st env install oauth effs ck wv f wm
        = Client.pluginBuild st env install oauth effs ck wv f wm := by
      simp [Client.pluginCached, hLk]
    rw [hEq] at hres
    exact pluginBuild_result_wasi _ _ _ _ _ _ _ _ _ _ hres
  · by_cases hfr : cached.timestamp + 270 > st.now
    · have hEq : Client.pluginCached st env install oauth effs ck wv f wm
          = ⟨st, install, effs, some cached⟩ := by
        simp [Client.pluginCached, hLk, hfr]
      rw [hEq] at hbuilt
      exact absurd hbuilt hnb
    · have hEq : Client.pluginCached st env install oauth effs ck wv f wm
          = Client.pluginBuild
              { st with pluginCache := eraseA st.pluginCache install.name }
              env install oauth effs ck wv f wm := by
        simp [Client.pluginCached, hLk, hfr]
      rw [hEq] at hres
      exact pluginBuild_result_wasi _ _ _ _ _ _ _ _ _ _ hres

/-- C8: whenever `Client.plugin` actually instantiated the runtime (a
`runtimeBuild` effect occurred) and returned an instance, that instance was
built with `wasi = true`: the assignment `wasi = wasi or True` coerces every
caller value — including `False` — to `True`, so a caller can never obtain a
plugin with WASI disabled. -/
theorem c8_wasi_always_true (st : ClientState) (env : Env)
    (install : Servlet) (c : Bool) (w : Option Bool)
    (f : Option (List Func)) (wm : Option (List WasmMod))
    (p : InstalledPlugin)
    (hres : (Client.plugin st env install c w f wm).result = some p)
    (hbuilt : Effect.runtimeBuild ∈
        (Client.plugin st env install c w f wm).effects) :
    p.wasiFlag = true ∧ pyOrTrue w = true := by
  have hpy : pyOrTrue w = true := by
    rcases w with _ | b
    · rfl
    · cases b <;> rfl
  refine ⟨?_, hpy⟩
  rcases hoa : install.has_oauth
  · have h1 : Client.plugin st env install c w f wm
        = Client.pluginCached st env install none []
            (cacheOk c (pyOrTrue w) f wm) (pyOrTrue w) f wm := by
      simp [Client.plugin, hoa]
    rw [h1] at hres hbuilt
    have := pluginCached_wasi st env install none [] _ _ f wm p
      (by simp) hres hbuilt
    rw [hpy] at this
    exact this
  · rcases he : env.oauthResp with e0 | o
    · have h1 : Client.plugin st env install c w f wm
          = ⟨st, install, [.oauthFetch], none⟩ := by
        simp [Client.plugin, hoa, he]
      rw [h1] at hres
      cases hres
    · have h1 : Client.plugin st env install c w f wm
          = Client.pluginCached st env install (some o) [.oauthFetch]
              (cacheOk c (pyOrTrue w) f wm) (pyOrTrue w) f wm := by
        simp [Client.plugin, hoa, he]
      rw [h1] at hres hbuilt
      have := pluginCached_wasi st env install (some o) [.oauthFetch] _ _
        f wm p (by simp) hres hbuilt
      rw [hpy] at this
      exact this

/-- Witness for `c8_wasi_always_true`: a concrete call passing
`wasi = some false` still yields an instance with the WASI flag set. -/
theorem c8_wasi_always_true_witness :
    ((Client.plugin emptyState envOk servletBC true (some false) none
        none).result.getD pluginB).wasiFlag = true ∧
    pyOrTrue (some false) = true :=
  c8_wasi_always_true emptyState envOk servletBC true (some false) none none
    ((Client.plugin emptyState envOk servletBC true (some false) none
        none).result.getD pluginB)
    (by decide) (by decide)

/-! ### C9 -/

theorem pluginCached_no_contentFetch (st : ClientState) (env : Env)
    (install : Servlet) (oauth : Option OAuthInfo) (effs : List Effect)
    (ck wv : Bool) (f : Option (List Func)) (wm : Option (List WasmMod))
    (b : String) (hb : install.content = some b)
    (hnc : Effect.contentFetch ∉ effs) :
    Effect.contentFetch ∉
      (Client.pluginCached st env install oauth effs ck wv f wm).effects := by
  have buildCase : ∀ stb : ClientState,
      Effect.contentFetch ∉
        (Client.pluginBuild stb env install oauth effs ck wv f wm).effects := by
    intro stb
    intro hmem
    rcases pluginBuild_shape stb env install oauth effs ck wv f wm with
      ⟨i, e, heq, hce, _⟩ | ⟨q, e2, heq, hce, _⟩
    · rw [heq] at hmem
      rcases hce hmem with h | h
      · exact hnc h
      · rw [hb] at h
        cases h
    · rw [heq] at hmem
      rcases hce hmem with h | h
      · exact hnc h
      · rw [hb] at h
        cases h
  rcases hLk : (if ck then lookupA st.pluginCache install.name else none)
    with _ | cached
  · have hEq : Client.pluginCached st env install oauth effs ck wv f wm
        = Client.pluginBuild st env install oauth effs ck wv f wm := by
      simp [Client.pluginCached, hLk]
    rw [hEq]
    exact buildCase st
  · by_cases hfr : cached.timestamp + 270 > st.now
    · have hEq : Client.pluginCached st env install oauth effs ck wv f wm
          = ⟨st, install, effs, some cached⟩ := by
        simp [Client.pluginCached, hLk, hfr]
      rw [hEq]
      exact hnc
    · have hEq : Client.pluginCached st env install oauth effs ck wv f wm
          = Client.pluginBuild
              { st with pluginCache := eraseA st.pluginCache install.name }
              env install oauth effs ck wv f wm := by
        simp [Client.pluginCached, hLk, hfr]
      rw [hEq]
      exact buildCase _

/-- A call on a record whose content is already present never performs a
content fetch (regardless of caching arguments or outcome). -/
theorem plugin_no_refetch (st : ClientState) (env : Env) (install : Servlet)
    (c : Bool) (w : Option Bool) (f : Option (List Func))
    (wm : Option (List WasmMod)) (b : String)
    (hb : install.content = some b) :
    Effect.contentFetch ∉
      (Client.plugin st env install c w f wm).effects := by
  rcases hoa : install.has_oauth
  · have h1 : Client.plugin st env install c w f wm
        = Client.pluginCached st env install none []
            (cacheOk c (pyOrTrue w) f wm) (pyOrTrue w) f wm := by
      simp [Client.plugin, hoa]
    rw [h1]
    exact pluginCached_no_contentFetch st env install none [] _ _ f wm b hb
      (by simp)
  · rcases he : env.oauthResp with e0 | o
    · have h1 : Client.plugin st env install c w f wm
          = ⟨st, install, [.oauthFetch], none⟩ := by
        simp [Client.plugin, hoa, he]
      rw [h1]
      simp
    · have h1 : Client.plugin st env install c w f wm
          = Client.pluginCached st env install (some o) [.oauthFetch]
              (cacheOk c (pyOrTrue w) f wm) (pyOrTrue w) f wm := by
        simp [Client.plugin, hoa, he]
      rw [h1]
      exact pluginCached_no_contentFetch st env install (some o)
        [.oauthFetch] _ _ f wm b hb (by simp)

/-- C9: when the content is absent, the content-fetch response body is
stored on the record whatever the response status (the code never calls
`raise_for_status` on this response), and every later call on the record so
mutated — now carrying the error body as its WASM content — performs no
content fetch: the error body is cached permanently. -/
theorem c9_error_body_cached_forever (st : ClientState) (env : Env)
    (install : Servlet) (c : Bool) (w : Option Bool)
    (f : Option (List Func)) (wm : Option (List WasmMod)) (r : ContentResp)
    (st2 : ClientState) (env2 : Env) (c2 : Bool) (w2 : Option Bool)
    (f2 : Option (List Func)) (wm2 : Option (List WasmMod))
    (hc : install.content = none)
    (ho : install.has_oauth = false)
    (hmiss : lookupA st.pluginCache install.name = none)
    (hresp : env.contentResp = .ok r) :
    (Client.plugin st env install c w f wm).install.content = some r.body ∧
    Effect.contentFetch ∉
      (Client.plugin st2 env2 (Client.plugin st env install c w f wm).install
        c2 w2 f2 wm2).effects := by
  have h1 : Client.plugin st env install c w f wm
      = Client.pluginCached st env install none []
          (cacheOk c (pyOrTrue w) f wm) (pyOrTrue w) f wm := by
    simp [Client.plugin, ho]
  have h2 : Client.pluginCached st env install none []
        (cacheOk c (pyOrTrue w) f wm) (pyOrTrue w) f wm
      = Client.pluginBuild st env install none []
          (cacheOk c (pyOrTrue w) f wm) (pyOrTrue w) f wm :=
    pluginCached_miss st env install none [] _ _ f wm hmiss
  have hcontent : (Client.plugin st env install c w f wm).install.content
      = some r.body := by
    rw [h1, h2]
    rcases pluginBuild_shape st env install none []
        (cacheOk c (pyOrTrue w) f wm) (pyOrTrue w) f wm with
      ⟨i, e, heq, _, _, h4⟩ | ⟨q, e2, heq, _, _, _, _, h4⟩
    · rw [heq]
      exact h4 r hc hresp
    · rw [heq]
      exact h4 r hc hresp
  exact ⟨hcontent,
    plugin_no_refetch st2 env2 _ c2 w2 f2 wm2 r.body hcontent⟩

/-- Witness for `c9_error_body_cached_forever`: a status-500 response body
`"ERRBODY"` ends up stored as the record's WASM content and a second call on
the mutated record performs no content fetch. -/
theorem c9_error_body_cached_forever_witness :
    (Client.plugin emptyState envErrBody servletN true none none
        none).install.content = some "ERRBODY" ∧
    Effect.contentFetch ∉
      (Client.plugin emptyState envErrBody
        (Client.plugin emptyState envErrBody servletN true none none
          none).install true none none none).effects :=
  c9_error_body_cached_forever emptyState envErrBody servletN true none none
    none ⟨500, "ERRBODY"⟩ emptyState envErrBody true none none none
    (by decide) (by decide) (by decide) rfl

/-! ### C10 -/

/-- C10: for a record whose settings carry a `config` mapping and with
`hasOAuth = true`, a (re)build injects the fetched access token under the
fetched config name into the manifest `config` — and because the manifest
aliases `install.settings["config"]`, the injection mutates the record's own
settings: after the call the record's `settings.config` equals the built
manifest's `config` and contains the token, so every later manifest seeded
from this record (`manifestConfig`) carries the token as well. -/
theorem c10_token_injection_mutates_record (st : ClientState) (env : Env)
    (install : Servlet) (c : Bool) (w : Option Bool)
    (f : Option (List Func)) (wm : Option (List WasmMod)) (o : OAuthInfo)
    (m : List (String × String)) (b : String) (perm : Permissions)
    (fsp : FsPerm) (netp : NetPerm)
    (ho : install.has_oauth = true) (he : env.oauthResp = .ok o)
    (hcfg : install.settings.config = some m)
    (hmiss : lookupA st.pluginCache install.name = none)
    (hb : install.content = some b)
    (hperm : install.settings.permissions = some perm)
    (hfs : perm.filesystem = some fsp) (hnet : perm.network = some netp)
    (hrt : env.runtimeOk = true) :
    ∃ p, (Client.plugin st env install c w f wm).result = some p
      ∧ (Client.plugin st env install c w f wm).install.settings.config
          = some (insertA m o.config_name o.access_token)
      ∧ p.manifest.config = insertA m o.config_name o.access_token
      ∧ p.install = (Client.plugin st env install c w f wm).install
      ∧ lookupA (insertA m o.config_name o.access_token) o.config_name
          = some o.access_token
      ∧ manifestConfig (Client.plugin st env install c w f wm).install
          = insertA m o.config_name o.access_token := by
  have h1 : Client.plugin st env install c w f wm
      = Client.pluginCached st env install (some o) [.oauthFetch]
          (cacheOk c (pyOrTrue w) f wm) (pyOrTrue w) f wm := by
    simp [Client.plugin, ho, he]
  have h2 := pluginCached_miss st env install (some o) [.oauthFetch]
    (cacheOk c (pyOrTrue w) f wm) (pyOrTrue w) f wm hmiss
  obtain ⟨q, heq, hts, hwv, hfn, hname, hcontent, hmc, hsc⟩ :=
    pluginBuild_success st env install (some o) [.oauthFetch]
      (cacheOk c (pyOrTrue w) f wm) (pyOrTrue w) f wm b perm fsp netp
      hb hperm hfs hnet hrt
  rw [h1, h2, heq]
  have hmcfg : manifestConfig install = m := by
    simp [manifestConfig, hcfg]
  rw [hcfg] at hsc
  rw [hmcfg] at hmc
  refine ⟨q, rfl, hsc, hmc, rfl, lookupA_insertA_self _ _ _, ?_⟩
  simp [manifestConfig, hsc]

/-- Witness for `c10_token_injection_mutates_record` at a concrete OAuth
servlet whose settings carry `config = [("api_key", "k0")]`. -/
theorem c10_token_injection_mutates_record_witness :
    ∃ p, (Client.plugin emptyState envOk servletO true none none
          none).result = some p
      ∧ (Client.plugin emptyState envOk servletO true none none
            none).install.settings.config
          = some (insertA [("api_key", "k0")] "oauth_token" "SECRET")
      ∧ p.manifest.config = insertA [("api_key", "k0")] "oauth_token" "SECRET"
      ∧ p.install = (Client.plugin emptyState envOk servletO true none none
            none).install
      ∧ lookupA (insertA [("api_key", "k0")] "oauth_token" "SECRET")
          "oauth_token" = some "SECRET"
      ∧ manifestConfig (Client.plugin emptyState envOk servletO true none
            none none).install
          = insertA [("api_key", "k0")] "oauth_token" "SECRET" :=
  c10_token_injection_mutates_record emptyState envOk servletO true none
    none none ⟨"oauth_token", "SECRET"⟩ [("api_key", "k0")] "WASM-O"
    examplePerms ⟨some []⟩ ⟨some ["cdn.example.com"]⟩ (by decide) rfl
    (by decide) (by decide) (by decide) (by decide) (by decide) (by decide)
    (by decide)

end McpRun
